import Mathlib

/-
Verification of the npg_ranger streaming server core.

Shallow embedding of:
  * lib/server/http/trailer.js  (HTTP trailer writer)
  * lib/server/model.js         (RangerModel: plan building, process handling)
  * lib/server/pipeline.js      (pipeline engine)

JavaScript values are embedded as follows: byte chunks become `List Nat`,
argv lists become `List String`, thrown exceptions become `Except` /
`Option` error values, and the external MD5 accumulator (node's crypto
module) is kept abstract: theorems quantify over an arbitrary digest
function `md5hex : List Nat → String`, since the repository never looks
inside the digest.
-/

namespace NpgRanger

/-! ### lib/server/http/trailer.js -/

def TRAILER_HEADER_NAME : String := "Trailer"

def DATA_TRUNCATION_TRAILER : String := "data-truncated"

def CHECKSUM_TRAILER : String := "checksum"

/-- A node HTTP response, reduced to the observables the trailer module
touches: named headers and the flat raw trailer list the client receives
(`[name, value, name, value, ...]`). -/
structure HttpResponse where
  headers : List (String × String)
  rawTrailers : List String
deriving Repr, DecidableEq

def HttpResponse.getHeader (r : HttpResponse) (name : String) : Option String :=
  (r.headers.find? (fun p => p.1 == name)).map Prod.snd

def HttpResponse.setHeader (r : HttpResponse) (name value : String) : HttpResponse :=
  { r with headers := (name, value) :: r.headers.filter (fun p => p.1 != name) }

def HttpResponse.removeHeader (r : HttpResponse) (name : String) : HttpResponse :=
  { r with headers := r.headers.filter (fun p => p.1 != name) }

/-- `trailer.declare(response)`: sets the `Trailer` header to
`[DATA_TRUNCATION_TRAILER, CHECKSUM_TRAILER].join()`. -/
def declare (r : HttpResponse) : HttpResponse :=
  r.setHeader TRAILER_HEADER_NAME
    (String.intercalate "," [DATA_TRUNCATION_TRAILER, CHECKSUM_TRAILER])

/-- `trailer.removeDeclaration(response)`. -/
def removeDeclaration (r : HttpResponse) : HttpResponse :=
  r.removeHeader TRAILER_HEADER_NAME

inductive TrailerError
  | trailerNotDeclared
deriving Repr, DecidableEq

/-- JavaScript `String.prototype.includes`: substring test, here on the
character lists of the two strings. -/
def containsSub (needle : List Char) : List Char → Bool
  | [] => needle.isPrefixOf []
  | c :: rest => needle.isPrefixOf (c :: rest) || containsSub needle rest

/-- JavaScript `Boolean.prototype.toString`. -/
def boolToString (b : Bool) : String := if b then "true" else "false"

/-- Stringification a trailer value undergoes on the wire: the module stores
`null` when the checksum argument is not a string, and node writes it out as
the string `"null"`. -/
def trailerValueString (v : Option String) : String :=
  match v with
  | some s => s
  | none => "null"

/-- `trailer.setDataTruncation(response, truncated, checksum)`.  The
`checksum` argument is `none` when the caller passed `null`, omitted it, or
passed a non-string (the source coerces all of those to `null`).  The check
`trailers && trailers.includes(DATA_TRUNCATION_TRAILER)` becomes: the
`Trailer` header exists and contains `data-truncated` as a substring. -/
def setDataTruncation (r : HttpResponse) (truncated : Bool)
    (checksum : Option String) : Except TrailerError HttpResponse :=
  match r.getHeader TRAILER_HEADER_NAME with
  | some trailers =>
      if containsSub DATA_TRUNCATION_TRAILER.data trailers.data then
        Except.ok { r with rawTrailers := r.rawTrailers ++
          [DATA_TRUNCATION_TRAILER, boolToString truncated,
           CHECKSUM_TRAILER, trailerValueString checksum] }
      else
        Except.error TrailerError.trailerNotDeclared
  | none => Except.error TrailerError.trailerNotDeclared

/-! ### lib/server/model.js — constants and query model -/

def SAMTOOLS_COMMAND : String := "samtools"

def BBB_MARKDUPS_COMMAND : String := "bamstreamingmarkduplicates"

def FREEBAYES_COMMAND : String := "freebayes"

def DEFAULT_FORMAT : String := "BAM"

/-- `query.region` is either a single string or an array of strings. -/
inductive Region
  | str (s : String)
  | list (l : List String)
deriving Repr, DecidableEq

/-- JavaScript truthiness of `query.region`: absent and the empty string are
falsy, every array (even empty) is truthy. -/
def Region.truthyOpt : Option Region → Bool
  | none => false
  | some (Region.str s) => !(s == "")
  | some (Region.list _) => true

/-- `attrs.concat(query.region)`: a string region contributes itself as one
element, an array region contributes its elements. -/
def Region.tokensOpt : Option Region → List String
  | none => []
  | some (Region.str s) => [s]
  | some (Region.list l) => l

/-- The single argv string a region becomes when pushed as one argument and
stringified by `child_process.spawn` (arrays join with a comma). -/
def Region.asArgOpt : Option Region → String
  | none => "null"
  | some (Region.str s) => s
  | some (Region.list l) => String.intercalate "," l

/-- The query object handed to `RangerModel.process`.  A file reference is
embedded as its path / `data_object` string. -/
structure Query where
  files : List String
  region : Option Region
  format : Option String
  reference : Option String
  directory : Option String
deriving Repr, DecidableEq

/-- One planned pipeline stage: executable plus argv. -/
structure Stage where
  executable : String
  argv : List String
deriving Repr, DecidableEq

inductive ModelError
  | missingReference
  | inconsistentFormat
deriving Repr, DecidableEq

/-- `_stViewAttrs(query)` (model.js lines 129-149).  Returns the argv list
together with the query as the call leaves it: `query.files.shift()` removes
the first file from the caller's query.  The output flag is pushed only when
`query.format` is truthy: `-b` for `BAM` or `VCF`, `-C` for `CRAM`, nothing
otherwise.  The positional argument is the shifted file, or `-` when files
is empty or the first file is the (falsy) empty string.  Region tokens are
concatenated when `query.region` is truthy. -/
def stViewAttrs (q : Query) : List String × Query :=
  let flag : List String :=
    match q.format with
    | none => []
    | some f =>
        if f = "" then []
        else if f = "BAM" ∨ f = "VCF" then ["-b"]
        else if f = "CRAM" then ["-C"]
        else []
  let posArg : String :=
    match q.files with
    | [] => "-"
    | f :: _ => if f = "" then "-" else f
  let regionPart : List String :=
    if Region.truthyOpt q.region then Region.tokensOpt q.region else []
  (["view", "-h"] ++ flag ++ [posArg] ++ regionPart,
   { q with files := q.files.tail })

/-- Case-insensitive suffix test, embedding the regexes `/\.bam$/i` and
`/\.cram$/i` applied to a file's `data_object`. -/
def endsWithCI (suffix s : String) : Bool :=
  suffix.toLower.data.reverse.isPrefixOf s.toLower.data.reverse

/-- The fail-fast consistency check of `_stMergeAttrs` (model.js lines
166-173): some file matches `/\.bam$/i` and some file matches `/\.cram$/i`. -/
def stMergeAttrsThrows (files : List String) : Bool :=
  files.any (fun f => endsWithCI ".bam" f) && files.any (fun f => endsWithCI ".cram" f)

/-- `_stMergeAttrs(query)` (model.js lines 151-178): `merge -u`, `-R r` per
region token, `-`, then all files.  Errors on mixed bam/cram input.  The
query itself is not mutated by this helper. -/
def stMergeAttrs (q : Query) : Except ModelError (List String) :=
  if stMergeAttrsThrows q.files then Except.error ModelError.inconsistentFormat
  else
    let regionPart : List String :=
      if Region.truthyOpt q.region then
        (Region.tokensOpt q.region).flatMap (fun r => ["-R", r])
      else []
    Except.ok (["merge", "-u"] ++ regionPart ++ ["-"] ++ q.files)

/-- `_fbAttrs(query)` (model.js lines 187-199): `-c -f <reference>`, plus
`-r <region>` whenever `query.region` is truthy (string or array; an array
is stringified by spawn into a comma-joined argument).  Throws when
`query.reference` is falsy (absent or the empty string). -/
def fbAttrs (q : Query) : Except ModelError (List String) :=
  match q.reference with
  | none => Except.error ModelError.missingReference
  | some r =>
      if r = "" then Except.error ModelError.missingReference
      else
        Except.ok (["-c", "-f", r] ++
          (if Region.truthyOpt q.region then ["-r", Region.asArgOpt q.region] else []))

/-- The stages `_getFile` spawns (model.js lines 201-215): samtools view,
then — only for format `VCF` — freebayes.  `_stViewAttrs` runs first (its
mutation of `query.files` happens even when `_fbAttrs` throws later). -/
def getFileStages (q : Query) : Except ModelError (List Stage) :=
  let va := (stViewAttrs q).1
  let q1 := (stViewAttrs q).2
  if q1.format = some "VCF" then
    (fbAttrs q1).map (fun fa =>
      [Stage.mk SAMTOOLS_COMMAND va, Stage.mk FREEBAYES_COMMAND fa])
  else
    Except.ok [Stage.mk SAMTOOLS_COMMAND va]

/-- What `_getFile` leaves in the caller's query: `_stViewAttrs` shifts the
first element off `query.files` before anything can throw. -/
def getFileQueryEffect (q : Query) : Query := (stViewAttrs q).2

/-- What `_mergeFiles` (model.js lines 217-256) leaves in the caller's
query.  `_stMergeAttrs` runs first and throws on mixed formats with the
query untouched; otherwise the body deletes `query.region` and
`query.directory`, sets `query.files = []`, and calls `_stViewAttrs` on the
emptied query. -/
def mergeFilesQueryEffect (q : Query) : Query × Option ModelError :=
  if stMergeAttrsThrows q.files then (q, some ModelError.inconsistentFormat)
  else
    ((stViewAttrs { q with region := none, directory := none, files := [] }).2,
     none)

/-- The query mutation performed by `RangerModel.process` (model.js lines
72-85): the single-file path for `files.length === 1`, the merge path
otherwise. -/
def processQueryEffect (q : Query) : Query :=
  if q.files.length = 1 then getFileQueryEffect q
  else (mergeFilesQueryEffect q).1

/-! ### lib/server/pipeline.js -/

/-- Settlement of one stage future. -/
inductive Settled
  | resolved
  | rejected
deriving Repr, DecidableEq

/-- Events a child process (and its stdio streams) can deliver to the
listeners `createPromise` installs (pipeline.js lines 51-77). -/
inductive StageEvent
  | close (code : Option Nat) (signal : Option String)
  | procError (msg : String)
  | stdinError (msg : String)
  | stdoutError (msg : String)
deriving Repr, DecidableEq

/-- JavaScript truthiness of `code || signal` in the close handler: a
nonzero exit code, or a non-empty signal string. -/
def closeFailed (code : Option Nat) (signal : Option String) : Bool :=
  (match code with | some c => !(c == 0) | none => false) ||
  (match signal with | some s => !(s == "") | none => false)

/-- State accumulated by the listeners of `createPromise`: whether the
promise has settled (and how), and whether `kill()` was invoked on the next
stage. -/
structure PromiseTrace where
  outcome : Option Settled
  killedNext : Bool
deriving Repr, DecidableEq

/-- One event arriving at the listeners of `createPromise(p, nextP)`.  A
settled promise ignores later settlements, but the close handler's
`nextP.kill()` (pipeline.js lines 58-61) runs whenever the close event
carries a nonzero code or a signal, inside that failure branch only. -/
def createPromiseStep (hasNext : Bool) (t : PromiseTrace) (e : StageEvent) :
    PromiseTrace :=
  match e with
  | StageEvent.close code signal =>
      if closeFailed code signal then
        { outcome := some (t.outcome.getD Settled.rejected),
          killedNext := t.killedNext || hasNext }
      else
        { t with outcome := some (t.outcome.getD Settled.resolved) }
  | _ => { t with outcome := some (t.outcome.getD Settled.rejected) }

/-- Run the listeners of `createPromise` over the sequence of events the
process delivers. -/
def createPromiseRun (hasNext : Bool) (events : List StageEvent) : PromiseTrace :=
  events.foldl (createPromiseStep hasNext) (PromiseTrace.mk none false)

/-- Whether an event is a close event reporting a nonzero code or signal. -/
def isFailedClose : StageEvent → Bool
  | StageEvent.close code signal => closeFailed code signal
  | _ => false

/-- Whether an event rejects the stage future when it is the first to
settle it (every embedded event settles the future: close resolves or
rejects, the three error events reject). -/
def eventRejects : StageEvent → Bool
  | StageEvent.close code signal => closeFailed code signal
  | _ => true

/-- The pipeline's published result record `_result` (pipeline.js lines
37-40): initialised to `{ truncated: false, checksum: null }`. -/
structure PipelineResult where
  truncated : Bool
  checksum : Option String
deriving Repr, DecidableEq

/-- The observable trace of one pipeline run, once every stage future has
settled. -/
structure RunTrace where
  result : PipelineResult
  successCalls : Nat
  failureCalls : Nat
  sinkChunks : List (List Nat)
  finalizeOnEnd : Bool
  finalizeOnSuccess : Bool
deriving Repr, DecidableEq

/-- The `Promise.all` join over the settled stage futures: resolved exactly
when every future resolved. -/
def promiseAllSettles (settles : List Settled) : Settled :=
  if settles.all (fun s => s == Settled.resolved) then Settled.resolved
  else Settled.rejected

/-- The wiring `schedule(destination)` performs on the next tick
(pipeline.js lines 150-177) for a given run, described by the chunk
sequence the terminal stage's stdout emits and whether its `end` event
fires.  If the destination has already finished, nothing is wired.
Otherwise the terminal stdout is paused, piped to the destination with
`end:false`, given a data observer feeding the hash, and resumed — so the
hash sees exactly the chunks the sink receives, first chunk included, and
the `end` handler calls `_getHashDigest()` (finalizing the digest). -/
structure ScheduleTrace where
  wired : Bool
  sinkChunks : List (List Nat)
  hashedBytes : List Nat
  endFinalize : Bool
deriving Repr, DecidableEq

def schedule (destinationFinished : Bool) (chunks : List (List Nat))
    (stdoutEnded : Bool) : ScheduleTrace :=
  if destinationFinished then ScheduleTrace.mk false [] [] false
  else ScheduleTrace.mk true chunks chunks.flatten stdoutEnded

/-- One full pipeline run (pipeline.js `run` after validation): outcomes are
registered (pipeline.js lines 108-119) and the wiring is scheduled; when the
`Promise.all` join fires, exactly one of its two handlers runs, updating
`_result` and invoking the corresponding callback.  `md5hex` stands for the
external MD5 digest of the accumulated bytes. -/
def pipelineRun (md5hex : List Nat → String) (destinationFinished : Bool)
    (chunks : List (List Nat)) (stdoutEnded : Bool)
    (settles : List Settled) : RunTrace :=
  let tr := schedule destinationFinished chunks stdoutEnded
  match promiseAllSettles settles with
  | Settled.resolved =>
      RunTrace.mk (PipelineResult.mk false (some (md5hex tr.hashedBytes)))
        1 0 tr.sinkChunks tr.endFinalize true
  | Settled.rejected =>
      RunTrace.mk (PipelineResult.mk true none)
        0 1 tr.sinkChunks tr.endFinalize false

/-! #### run-time input validation (pipeline.js lines 180-229) -/

/-- One element of the `processes` array. -/
inductive JSElem
  | undefined
  | notEmitter
  | emitter
deriving Repr, DecidableEq

/-- The `processes` argument as `validateInput` classifies it. -/
inductive JSProcArg
  | undefined
  | notArray
  | array (elems : List JSElem)
deriving Repr, DecidableEq

/-- A callback argument as `validateInput` classifies it. -/
inductive JSCallback
  | undefined
  | notFunction
  | function
deriving Repr, DecidableEq

/-- The three error classes `run`/`validateInput` throw. -/
inductive JsErrorKind
  | referenceError (msg : String)
  | typeError (msg : String)
  | rangeError (msg : String)
deriving Repr, DecidableEq

def JSElem.isEmitter : JSElem → Bool
  | JSElem.emitter => true
  | _ => false

def JSCallback.isFunction : JSCallback → Bool
  | JSCallback.function => true
  | _ => false

/-- The `processes.forEach` loop of `validateInput`: the first offending
element wins, with its index in the message. -/
def findBadElem : List JSElem → Nat → Option JsErrorKind
  | [], _ => none
  | e :: es, i =>
      match e with
      | JSElem.undefined =>
          some (JsErrorKind.referenceError
            ("Undefined process at index " ++ toString i))
      | JSElem.notEmitter =>
          some (JsErrorKind.typeError
            ("Not an event emitter at index " ++ toString i))
      | JSElem.emitter => findBadElem es (i + 1)

/-- `validateInput()` (pipeline.js lines 180-211), checks in source order. -/
def validateInput (processes : JSProcArg) (onSuccessClbk onFailureClbk : JSCallback) :
    Option JsErrorKind :=
  match processes with
  | JSProcArg.undefined =>
      some (JsErrorKind.referenceError "Array of processes should be defined")
  | JSProcArg.notArray =>
      some (JsErrorKind.typeError "processes should be an array")
  | JSProcArg.array elems =>
      if elems.length = 0 then
        some (JsErrorKind.rangeError "processes array cannot be empty")
      else
        match findBadElem elems 0 with
        | some e => some e
        | none =>
            match onSuccessClbk with
            | JSCallback.undefined =>
                some (JsErrorKind.referenceError "Success callback should be defined")
            | JSCallback.notFunction =>
                some (JsErrorKind.typeError "Success callback should be a function")
            | JSCallback.function =>
                match onFailureClbk with
                | JSCallback.undefined =>
                    some (JsErrorKind.referenceError "Failure callback should be defined")
                | JSCallback.notFunction =>
                    some (JsErrorKind.typeError "Failure callback should be a function")
                | JSCallback.function => none

/-- The side effects `run` performs after validation succeeds. -/
inductive RunAction
  | outcomesRegistered
  | scheduled
deriving Repr, DecidableEq

/-- `run(destination)` (pipeline.js lines 222-229): check the destination,
then `validateInput()`, and only then register outcomes and schedule the
wiring.  Returns the actions performed plus the error thrown, if any. -/
def pipelineRunValidate (destinationDefined : Bool) (processes : JSProcArg)
    (onSuccessClbk onFailureClbk : JSCallback) :
    List RunAction × Option JsErrorKind :=
  if !destinationDefined then
    ([], some (JsErrorKind.referenceError "Destination stream is not defined"))
  else
    match validateInput processes onSuccessClbk onFailureClbk with
    | some e => ([], some e)
    | none => ([RunAction.outcomesRegistered, RunAction.scheduled], none)

/-- All the checks of `run` pass. -/
def inputValid (destinationDefined : Bool) (processes : JSProcArg)
    (onSuccessClbk onFailureClbk : JSCallback) : Bool :=
  destinationDefined &&
  (match processes with
   | JSProcArg.array elems => !elems.isEmpty && elems.all JSElem.isEmitter
   | _ => false) &&
  onSuccessClbk.isFunction && onFailureClbk.isFunction

/-- The element list of the `processes` argument ([] when not an array). -/
def procElems : JSProcArg → List JSElem
  | JSProcArg.array elems => elems
  | _ => []

/-- Which broken inputs justify an error of each class, as C10 assigns
them: `ReferenceError` for a missing destination, processes array, array
element or callback; `TypeError` for a non-array, non-emitter element or
non-function callback; `RangeError` for an empty array. -/
def errorJustified (destinationDefined : Bool) (processes : JSProcArg)
    (onSuccessClbk onFailureClbk : JSCallback) : JsErrorKind → Prop
  | JsErrorKind.referenceError _ =>
      destinationDefined = false ∨ processes = JSProcArg.undefined ∨
      JSElem.undefined ∈ procElems processes ∨
      onSuccessClbk = JSCallback.undefined ∨ onFailureClbk = JSCallback.undefined
  | JsErrorKind.typeError _ =>
      processes = JSProcArg.notArray ∨
      JSElem.notEmitter ∈ procElems processes ∨
      onSuccessClbk = JSCallback.notFunction ∨ onFailureClbk = JSCallback.notFunction
  | JsErrorKind.rangeError _ => processes = JSProcArg.array []

/-! #### response-socket close handling (pipeline.js lines 122-142 and the
grace argument of model.js line 214) -/

/-- The only kill the pipeline wires to the response socket: the `close`
listener of `schedule` kills `processes[0]` when the socket closed with the
error flag, and does nothing otherwise.  No timer is armed anywhere in
pipeline.js or model.js. -/
def socketCloseKillIndices (hadError : Bool) : List Nat :=
  if hadError then [0] else []

/-- Which of `n` still-running subprocesses of a request remain alive
`elapsedMs` milliseconds after the response socket closed: only the
socket-close kill ever fires, so the elapsed time is irrelevant. -/
def aliveAfterSocketClose (n : Nat) (hadError : Bool) (elapsedMs : Nat) :
    List Nat :=
  let _ := elapsedMs
  (List.range n).filter (fun i => !((socketCloseKillIndices hadError).contains i))

/-- model.js calls `.run(destination, this.processTimeoutGrace)` (line 214),
but pipeline.js declares `run` with the single parameter `destination`
(line 222): the grace argument is dropped at the call boundary. -/
def runWithGrace (processTimeoutGrace : Nat) (destinationDefined : Bool)
    (processes : JSProcArg) (onSuccessClbk onFailureClbk : JSCallback) :
    List RunAction × Option JsErrorKind :=
  let _ := processTimeoutGrace
  pipelineRunValidate destinationDefined processes onSuccessClbk onFailureClbk

/-! #### `_mergeFiles` request lifecycle (model.js lines 217-256) -/

/-- Observable events of one multi-file request, in the order the source
performs them. -/
inductive ModelEvent
  | mkdirTempDir
  | spawnStage (title : String)
  | endResponseCalled (truncated : Bool)
  | removeStarted
  | removeCompleted
deriving Repr, DecidableEq

/-- The event trace of a settled `_mergeFiles` request (non-VCF):
`fs.mkdirSync(dir)`, the three spawns, then the settlement callback body
`endResponseClback(truncated); cleanup();`.  `cleanup` calls the
asynchronous `fse.remove`, whose completion is delivered on a later
event-loop turn — strictly after the callback body has returned. -/
def mergeRunTrace (truncated : Bool) : List ModelEvent :=
  [ModelEvent.mkdirTempDir,
   ModelEvent.spawnStage "samtools merge",
   ModelEvent.spawnStage BBB_MARKDUPS_COMMAND,
   ModelEvent.spawnStage "samtools view (post-merge)",
   ModelEvent.endResponseCalled truncated,
   ModelEvent.removeStarted,
   ModelEvent.removeCompleted]

/-- Whether the per-request temp directory exists after the given prefix of
the trace has executed: it exists from `mkdirSync` until the removal
completes. -/
def dirExistsAfter (trace : List ModelEvent) : Bool :=
  trace.contains ModelEvent.mkdirTempDir &&
  !(trace.contains ModelEvent.removeCompleted)

/-! ### Theorems -/

/-- C1: for every pipeline run over a non-empty list of stages whose futures
all settle, exactly one of `onSuccess` / `onFailure` is invoked, exactly
once; at `onSuccess` the result record is
`{ truncated: false, checksum: hex(md5 digest) }`, and at `onFailure` it is
`{ truncated: true, checksum: null }`. -/
theorem C1_exactly_one_outcome (md5hex : List Nat → String)
    (destinationFinished : Bool) (chunks : List (List Nat))
    (stdoutEnded : Bool) (settles : List Settled) (hne : settles ≠ []) :
    (pipelineRun md5hex destinationFinished chunks stdoutEnded settles).successCalls +
      (pipelineRun md5hex destinationFinished chunks stdoutEnded settles).failureCalls = 1 ∧
    ((pipelineRun md5hex destinationFinished chunks stdoutEnded settles).successCalls = 1 →
      (pipelineRun md5hex destinationFinished chunks stdoutEnded settles).result =
        PipelineResult.mk false
          (some (md5hex (schedule destinationFinished chunks stdoutEnded).hashedBytes))) ∧
    ((pipelineRun md5hex destinationFinished chunks stdoutEnded settles).failureCalls = 1 →
      (pipelineRun md5hex destinationFinished chunks stdoutEnded settles).result =
        PipelineResult.mk true none) := by
  have _ := hne
  cases h : promiseAllSettles settles <;> simp [pipelineRun, h]

/-- Witness for C1 at a concrete run: one stage that resolves. -/
theorem C1_exactly_one_outcome_witness :
    (pipelineRun (fun _ => "d0") false [[1, 2], [3]] true [Settled.resolved]).successCalls +
      (pipelineRun (fun _ => "d0") false [[1, 2], [3]] true [Settled.resolved]).failureCalls = 1 :=
  (C1_exactly_one_outcome (fun _ => "d0") false [[1, 2], [3]] true [Settled.resolved]
    (List.cons_ne_nil _ _)).1

/-- C2 as stated is refuted here: on a run whose only stage future rejects,
the stdout `end` handler has nevertheless finalized the digest
(pipeline.js lines 171-174), so the digest is not finalized only on the
success path. -/
theorem C2_counterexample :
    (pipelineRun (fun _ => "d0") false [[1, 2]] true [Settled.rejected]).failureCalls = 1 ∧
    (pipelineRun (fun _ => "d0") false [[1, 2]] true [Settled.rejected]).finalizeOnEnd = true ∧
    (pipelineRun (fun _ => "d0") false [[1, 2]] true [Settled.rejected]).finalizeOnSuccess = false := by
  refine ⟨rfl, rfl, rfl⟩

/-- C2 amended: for every successful run the checksum in the result record
equals the digest of the exact byte sequence the terminal stdout delivered
to the sink, in order, first chunk included; the digest is finalized when
the terminal stdout's `end` event fires (which also happens on failing
runs) and, memoized, on the success path. -/
theorem C2_checksum_amended (md5hex : List Nat → String)
    (chunks : List (List Nat)) (stdoutEnded : Bool) (settles : List Settled)
    (hs : promiseAllSettles settles = Settled.resolved) :
    (pipelineRun md5hex false chunks stdoutEnded settles).result.checksum =
      some (md5hex ((pipelineRun md5hex false chunks stdoutEnded settles).sinkChunks).flatten) ∧
    (pipelineRun md5hex false chunks stdoutEnded settles).sinkChunks = chunks ∧
    (pipelineRun md5hex false chunks stdoutEnded settles).finalizeOnEnd = stdoutEnded ∧
    (pipelineRun md5hex false chunks stdoutEnded settles).finalizeOnSuccess = true := by
  simp [pipelineRun, hs, schedule]

/-- Witness for C2 amended at a concrete successful run. -/
theorem C2_checksum_amended_witness :
    (pipelineRun (fun _ => "d1") false [[7], [8, 9]] true [Settled.resolved]).sinkChunks =
      [[7], [8, 9]] :=
  (C2_checksum_amended (fun _ => "d1") [[7], [8, 9]] true [Settled.resolved] rfl).2.1

/-- C3: the code diverges from the claim.  With two subprocesses running,
after the response socket closes without the error flag both remain alive
however much time elapses (10000 ms here, beyond any grace); even with the
error flag only the head is killed; and the run is entirely independent of
the `processTimeoutGrace` value model.js passes, because pipeline.js's
`run` takes a single parameter and arms no timer. -/
theorem C3_no_grace_timer :
    aliveAfterSocketClose 2 false 10000 = [0, 1] ∧
    aliveAfterSocketClose 2 true 10000 = [1] ∧
    ∀ g g' d ps s f, runWithGrace g d ps s f = runWithGrace g' d ps s f := by
  exact ⟨by decide, by decide, fun g g' d ps s f => rfl⟩

/-- C5 as stated is refuted here: `process` on a concrete single-file query
does not leave the query unchanged — `_stViewAttrs` shifts the file off
`query.files`. -/
theorem C5_counterexample :
    processQueryEffect (Query.mk ["f.bam"] none (some "BAM") none none) ≠
      Query.mk ["f.bam"] none (some "BAM") none none := by
  decide

/-- C5 amended: `process` mutates its query.  A single-file query loses the
first element of `files`; a multi-file query that passes the bam/cram
consistency check has `files` emptied and `region` and `directory`
deleted; only a multi-file query that fails that check (which throws before
the mutation) is left unchanged. -/
theorem C5_query_mutation_amended (q : Query) :
    processQueryEffect q =
      (if q.files.length = 1 then { q with files := q.files.tail }
       else if stMergeAttrsThrows q.files then q
       else { q with files := [], region := none, directory := none }) := by
  unfold processQueryEffect getFileQueryEffect mergeFilesQueryEffect
  by_cases h1 : q.files.length = 1 <;> simp [h1, stViewAttrs]
  by_cases h2 : stMergeAttrsThrows q.files <;> simp [h2]

/-- C8 as stated is refuted here: when the end callback returns (the trace
prefix through `endResponseCalled`), the temp directory still exists, on
the success path and on the failure path alike — `cleanup()` is invoked
only after `endResponseClback` returns, and `fse.remove` completes
asynchronously. -/
theorem C8_counterexample :
    (mergeRunTrace false).take 5 =
      [ModelEvent.mkdirTempDir, ModelEvent.spawnStage "samtools merge",
       ModelEvent.spawnStage BBB_MARKDUPS_COMMAND,
       ModelEvent.spawnStage "samtools view (post-merge)",
       ModelEvent.endResponseCalled false] ∧
    dirExistsAfter ((mergeRunTrace false).take 5) = true ∧
    dirExistsAfter ((mergeRunTrace true).take 5) = true := by
  refine ⟨rfl, rfl, rfl⟩

/-- C8 amended: on both settlement paths the removal of the per-request
temp directory is arranged — `fse.remove` is started after the end callback
returns — and once the asynchronous removal completes the directory no
longer exists. -/
theorem C8_cleanup_amended (truncated : Bool) :
    ModelEvent.removeStarted ∈ mergeRunTrace truncated ∧
    (mergeRunTrace truncated).indexOf (ModelEvent.endResponseCalled truncated) <
      (mergeRunTrace truncated).indexOf ModelEvent.removeStarted ∧
    dirExistsAfter (mergeRunTrace truncated) = false := by
  cases truncated <;> exact ⟨by decide, by decide, rfl⟩

/-- After `declare`, the `Trailer` header reads `data-truncated,checksum`. -/
theorem getHeader_declare (r : HttpResponse) :
    (declare r).getHeader TRAILER_HEADER_NAME = some "data-truncated,checksum" := by
  simp [declare, HttpResponse.getHeader, HttpResponse.setHeader, List.find?]
  rfl

/-- `declare` does not touch the raw trailers. -/
theorem rawTrailers_declare (r : HttpResponse) :
    (declare r).rawTrailers = r.rawTrailers := rfl

/-- C9: `setDataTruncation(response, truncated, checksum)` fails with the
trailer-not-declared error when no trailer declaration is present on the
response; with the declaration present it emits trailer values
`data-truncated = "true"|"false"` and `checksum = digest | "null"`, so that
setting truncation `true, null` yields raw trailers
`["data-truncated", "true", "checksum", "null"]`. -/
theorem C9_set_data_truncation (r : HttpResponse) (t : Bool) (c : Option String)
    (hnd : r.getHeader TRAILER_HEADER_NAME = none) :
    setDataTruncation r t c = Except.error TrailerError.trailerNotDeclared ∧
    setDataTruncation (declare r) t c =
      Except.ok { declare r with rawTrailers := r.rawTrailers ++
        [DATA_TRUNCATION_TRAILER, boolToString t,
         CHECKSUM_TRAILER, trailerValueString c] } ∧
    (setDataTruncation (declare (HttpResponse.mk [] [])) true none).map
        HttpResponse.rawTrailers =
      Except.ok ["data-truncated", "true", "checksum", "null"] := by
  refine ⟨?_, ?_, rfl⟩
  · simp [setDataTruncation, hnd]
  · rw [setDataTruncation, getHeader_declare]
    simp only [rawTrailers_declare]
    rfl

/-- Witness for C9 on a fresh response with no headers. -/
theorem C9_set_data_truncation_witness :
    setDataTruncation (HttpResponse.mk [] []) true none =
      Except.error TrailerError.trailerNotDeclared :=
  (C9_set_data_truncation (HttpResponse.mk [] []) true none rfl).1

/-- C6 as stated is refuted here: a single-file query that carries no
explicit format receives no output flag at all — the default-format
constant is not consulted by `_stViewAttrs`, so no `-b` is emitted. -/
theorem C6_counterexample :
    (stViewAttrs (Query.mk ["f.bam"] none none none none)).1 =
      ["view", "-h", "f.bam"] ∧
    "-b" ∉ (stViewAttrs (Query.mk ["f.bam"] none none none none)).1 := by
  decide

/-- C6 amended: for a single-file query, the first stage's argv is `view`,
`-h`, then the output flag — `-b` for an explicit BAM or VCF format, `-C`
for CRAM, none for SAM and none when the format is absent — then the file's
path, then each region token as an additional positional argument. -/
theorem C6_view_attrs_amended (q : Query) (f : String)
    (hf : q.files = [f]) (hne : f ≠ "") :
    (stViewAttrs q).1 =
      ["view", "-h"] ++
      (if q.format = some "BAM" ∨ q.format = some "VCF" then ["-b"]
       else if q.format = some "CRAM" then ["-C"] else []) ++
      [f] ++
      (if Region.truthyOpt q.region then Region.tokensOpt q.region else []) := by
  rcases q with ⟨files, region, format, reference, directory⟩
  simp only at hf
  subst hf
  cases format with
  | none => simp [stViewAttrs, hne]
  | some g =>
      by_cases hg : g = "" <;>
        simp [stViewAttrs, hne, hg]

/-- Witness for C6 amended at a SAM query. -/
theorem C6_view_attrs_amended_witness :
    (stViewAttrs (Query.mk ["f.bam"] none (some "SAM") none none)).1 =
      ["view", "-h", "f.bam"] := by
  rw [C6_view_attrs_amended (Query.mk ["f.bam"] none (some "SAM") none none)
    "f.bam" rfl (by decide)]
  decide

/-- C7 as stated is refuted here: the query carries a region list of two
strings, not exactly one region string, yet the variant-caller argv still
receives `-r` (with the list stringified by spawn into one comma-joined
argument). -/
theorem C7_counterexample :
    fbAttrs (Query.mk [] (some (Region.list ["chr1", "chr2"])) (some "VCF")
        (some "ref.fa") none) =
      Except.ok ["-c", "-f", "ref.fa", "-r", "chr1,chr2"] := rfl

/-- C7 amended: for a single-file query with format VCF, the plan's final
stage is the variant caller with argv `-c -f <reference>`, plus
`-r <region>` exactly when `query.region` is truthy — a non-empty region
string or any region list (the list passed as one spawn-stringified
argument); when the reference is absent (or empty, which is equally falsy)
plan building fails with the missing-reference error and no variant-caller
stage is produced. -/
theorem C7_fb_attrs_amended (q : Query) (hfmt : q.format = some "VCF") :
    ((q.reference = none ∨ q.reference = some "") →
      getFileStages q = Except.error ModelError.missingReference) ∧
    (∀ r, q.reference = some r → r ≠ "" →
      getFileStages q = Except.ok
        [Stage.mk SAMTOOLS_COMMAND (stViewAttrs q).1,
         Stage.mk FREEBAYES_COMMAND (["-c", "-f", r] ++
           (if Region.truthyOpt q.region then ["-r", Region.asArgOpt q.region]
            else []))]) := by
  rcases q with ⟨files, region, format, reference, directory⟩
  simp only at hfmt
  subst hfmt
  constructor
  · rintro (h | h) <;> subst h <;>
      simp [getFileStages, stViewAttrs, fbAttrs, Except.map]
  · rintro r rfl hr
    simp [getFileStages, stViewAttrs, fbAttrs, hr, Except.map]

/-- Witness for C7 amended: a VCF query with no reference fails plan
building. -/
theorem C7_fb_attrs_amended_witness :
    getFileStages (Query.mk ["f.bam"] none (some "VCF") none none) =
      Except.error ModelError.missingReference :=
  (C7_fb_attrs_amended (Query.mk ["f.bam"] none (some "VCF") none none) rfl).1
    (Or.inl rfl)

/-- The successor is killed exactly when some close event carries a nonzero
code or a signal, regardless of the promise's settlement state. -/
theorem createPromiseFold_killedNext (hasNext : Bool) (t : PromiseTrace)
    (events : List StageEvent) :
    (events.foldl (createPromiseStep hasNext) t).killedNext =
      (t.killedNext || (hasNext && events.any isFailedClose)) := by
  induction events generalizing t with
  | nil => simp [List.foldl]
  | cons e es ih =>
      rw [List.foldl_cons, ih]
      cases e with
      | close code signal =>
          by_cases hc : closeFailed code signal
          · simp [createPromiseStep, hc, isFailedClose]
            cases hasNext <;> simp
          · simp [createPromiseStep, hc, isFailedClose]
      | procError m => simp [createPromiseStep, isFailedClose]
      | stdinError m => simp [createPromiseStep, isFailedClose]
      | stdoutError m => simp [createPromiseStep, isFailedClose]

/-- A settled promise stays settled with the same outcome. -/
theorem createPromiseFold_outcome_preserved (hasNext : Bool) (s : Settled)
    (events : List StageEvent) (t : PromiseTrace) (h : t.outcome = some s) :
    (events.foldl (createPromiseStep hasNext) t).outcome = some s := by
  induction events generalizing t with
  | nil => exact h
  | cons e es ih =>
      rw [List.foldl_cons]
      apply ih
      cases e with
      | close code signal =>
          by_cases hc : closeFailed code signal <;>
            simp [createPromiseStep, hc, h]
      | procError m => simp [createPromiseStep, h]
      | stdinError m => simp [createPromiseStep, h]
      | stdoutError m => simp [createPromiseStep, h]

/-- C4 as stated is refuted here: the stage's future rejects via an error
on its stdin (rejection reason (d)), a next stage exists, and the later
close event reports code 0 and no signal — so `kill()` is never invoked on
the next stage. -/
theorem C4_counterexample :
    (createPromiseRun true [StageEvent.stdinError "EPIPE",
        StageEvent.close (some 0) none]).outcome = some Settled.rejected ∧
    (createPromiseRun true [StageEvent.stdinError "EPIPE",
        StageEvent.close (some 0) none]).killedNext = false := by
  exact ⟨rfl, rfl⟩

/-- C4 amended: `kill()` is invoked on stage i+1 exactly when stage i's
close event reports a nonzero exit code or a signal; rejections produced
only by error events on the process or its stdin/stdout do not kill the
successor.  The stage future settles with the first event: it rejects on
(a) nonzero exit code, (b) terminating signal, (c) a process error, (d) a
stdin/stdout error, and resolves on a clean close. -/
theorem C4_kill_on_close_amended (hasNext : Bool) (events : List StageEvent) :
    (createPromiseRun hasNext events).killedNext =
      (hasNext && events.any isFailedClose) ∧
    (∀ e es, events = e :: es →
      (createPromiseRun hasNext events).outcome =
        some (if eventRejects e then Settled.rejected else Settled.resolved)) := by
  constructor
  · simpa using createPromiseFold_killedNext hasNext (PromiseTrace.mk none false) events
  · rintro e es rfl
    unfold createPromiseRun
    rw [List.foldl_cons]
    apply createPromiseFold_outcome_preserved
    cases e with
    | close code signal =>
        by_cases hc : closeFailed code signal <;>
          simp [createPromiseStep, hc, eventRejects]
    | procError m => simp [createPromiseStep, eventRejects]
    | stdinError m => simp [createPromiseStep, eventRejects]
    | stdoutError m => simp [createPromiseStep, eventRejects]

/-- Witness for C4 amended: a close with exit code 1 and a successor. -/
theorem C4_kill_on_close_amended_witness :
    (createPromiseRun true [StageEvent.close (some 1) none]).killedNext = true ∧
    (createPromiseRun true [StageEvent.close (some 1) none]).outcome =
      some Settled.rejected := by
  have h := C4_kill_on_close_amended true [StageEvent.close (some 1) none]
  refine ⟨by rw [h.1]; rfl, by rw [h.2 _ _ rfl]; rfl⟩

/-- `findBadElem` only reports an undefined element (as a reference error)
or a non-emitter element (as a type error) actually present in the list. -/
theorem findBadElem_mem (elems : List JSElem) (i : Nat) (e : JsErrorKind)
    (h : findBadElem elems i = some e) :
    (∃ m, e = JsErrorKind.referenceError m ∧ JSElem.undefined ∈ elems) ∨
    (∃ m, e = JsErrorKind.typeError m ∧ JSElem.notEmitter ∈ elems) := by
  induction elems generalizing i with
  | nil => simp [findBadElem] at h
  | cons a as ih =>
      cases a with
      | undefined =>
          simp [findBadElem] at h
          exact Or.inl ⟨_, h.symm, List.mem_cons_self _ _⟩
      | notEmitter =>
          simp [findBadElem] at h
          exact Or.inr ⟨_, h.symm, List.mem_cons_self _ _⟩
      | emitter =>
          simp only [findBadElem] at h
          rcases ih (i + 1) h with ⟨m, rfl, hm⟩ | ⟨m, rfl, hm⟩
          · exact Or.inl ⟨m, rfl, List.mem_cons_of_mem _ hm⟩
          · exact Or.inr ⟨m, rfl, List.mem_cons_of_mem _ hm⟩

/-- If `findBadElem` finds nothing, every element is an emitter. -/
theorem findBadElem_none (elems : List JSElem) (i : Nat)
    (h : findBadElem elems i = none) : elems.all JSElem.isEmitter = true := by
  induction elems generalizing i with
  | nil => rfl
  | cons a as ih =>
      cases a with
      | undefined => simp [findBadElem] at h
      | notEmitter => simp [findBadElem] at h
      | emitter =>
          simp only [findBadElem] at h
          simpa [JSElem.isEmitter] using ih (i + 1) h

/-- Every error `validateInput` raises is of the class C10 assigns to one of
the broken inputs. -/
theorem validateInput_some_justified (d : Bool) (ps : JSProcArg)
    (s f : JSCallback) (e : JsErrorKind) (h : validateInput ps s f = some e) :
    errorJustified d ps s f e := by
  cases ps with
  | undefined =>
      simp [validateInput] at h
      subst h
      exact Or.inr (Or.inl rfl)
  | notArray =>
      simp [validateInput] at h
      subst h
      exact Or.inl rfl
  | array elems =>
      by_cases h0 : elems.length = 0
      · simp [validateInput, h0] at h
        subst h
        simp only [errorJustified]
        rw [List.length_eq_zero.mp h0]
      · cases hb : findBadElem elems 0 with
        | some err =>
            rw [validateInput.eq_def] at h
            simp only [h0, if_false, hb] at h
            injection h with h2
            subst h2
            rcases findBadElem_mem elems 0 err hb with ⟨m, rfl, hm⟩ | ⟨m, rfl, hm⟩
            · exact Or.inr (Or.inr (Or.inl (by simpa [procElems] using hm)))
            · exact Or.inr (Or.inl (by simpa [procElems] using hm))
        | none =>
            rw [validateInput.eq_def] at h
            simp only [h0, if_false, hb] at h
            cases s with
            | undefined =>
                cases h
                exact Or.inr (Or.inr (Or.inr (Or.inl rfl)))
            | notFunction =>
                cases h
                exact Or.inr (Or.inr (Or.inl rfl))
            | function =>
                cases f with
                | undefined =>
                    cases h
                    exact Or.inr (Or.inr (Or.inr (Or.inr rfl)))
                | notFunction =>
                    cases h
                    exact Or.inr (Or.inr (Or.inr rfl))
                | function => cases h

/-- If `validateInput` passes, the inputs really are a non-empty array of
emitters and two functions. -/
theorem validateInput_none_shape (ps : JSProcArg) (s f : JSCallback)
    (h : validateInput ps s f = none) :
    (∃ elems, ps = JSProcArg.array elems ∧ elems ≠ [] ∧
      elems.all JSElem.isEmitter = true) ∧
    s = JSCallback.function ∧ f = JSCallback.function := by
  cases ps with
  | undefined => simp [validateInput] at h
  | notArray => simp [validateInput] at h
  | array elems =>
      by_cases h0 : elems.length = 0
      · simp [validateInput, h0] at h
      · cases hb : findBadElem elems 0 with
        | some err =>
            rw [validateInput.eq_def] at h
            simp [h0, hb] at h
        | none =>
            rw [validateInput.eq_def] at h
            simp only [h0, if_false, hb] at h
            cases s with
            | undefined => simp at h
            | notFunction => simp at h
            | function =>
                cases f with
                | undefined => simp at h
                | notFunction => simp at h
                | function =>
                    refine ⟨⟨elems, rfl, ?_, findBadElem_none elems 0 hb⟩, rfl, rfl⟩
                    intro hnil
                    exact h0 (by simp [hnil])

/-- C10: `run(destination)` validates before any wiring: every invalid
input produces an error of the class the claim assigns — `ReferenceError`
for a missing destination, processes array, array element or callback;
`TypeError` for a non-array, a non-emitter element or a non-function
callback; `RangeError` for an empty array — and in every error case no
action is performed: nothing is piped, no outcome is registered, and
neither callback can ever be invoked. -/
theorem C10_run_validation (d : Bool) (ps : JSProcArg) (s f : JSCallback) :
    (∀ e, (pipelineRunValidate d ps s f).2 = some e →
      (pipelineRunValidate d ps s f).1 = [] ∧ errorJustified d ps s f e) ∧
    (inputValid d ps s f = false →
      ((pipelineRunValidate d ps s f).2).isSome = true) := by
  constructor
  · intro e he
    cases d with
    | false =>
        simp [pipelineRunValidate] at he ⊢
        subst he
        exact Or.inl rfl
    | true =>
        cases hv : validateInput ps s f with
        | none => simp [pipelineRunValidate, hv] at he
        | some err =>
            simp [pipelineRunValidate, hv] at he ⊢
            subst he
            exact validateInput_some_justified true ps s f err hv
  · intro hinv
    cases d with
    | false => simp [pipelineRunValidate]
    | true =>
        cases hv : validateInput ps s f with
        | some err => simp [pipelineRunValidate, hv]
        | none =>
            exfalso
            rcases validateInput_none_shape ps s f hv with
              ⟨⟨elems, rfl, hne, hall⟩, rfl, rfl⟩
            rw [inputValid] at hinv
            simp [JSCallback.isFunction, hall, List.isEmpty_iff, hne] at hinv

/-- Witness for C10: a run with a non-function failure callback throws a
type error and performs no action. -/
theorem C10_run_validation_witness :
    (pipelineRunValidate true (JSProcArg.array [JSElem.emitter])
        JSCallback.function JSCallback.notFunction).1 = [] ∧
    errorJustified true (JSProcArg.array [JSElem.emitter])
      JSCallback.function JSCallback.notFunction
      (JsErrorKind.typeError "Failure callback should be a function") :=
  (C10_run_validation true (JSProcArg.array [JSElem.emitter])
    JSCallback.function JSCallback.notFunction).1 _ rfl

end NpgRanger
